import Mathlib

/-!
Shallow embedding of the paperless-ngx document-index and rule-matching
subsystems (`src/documents/index.py` and `src/documents/matching.py`),
together with theorems settling the specification claims about them.

Conventions:
  - Python strings are Lean `String`s; character-level operations work on
    `String.data` so that everything reduces inside the kernel.
  - Machine floats (relevance scores) are modelled as rationals `ℚ`.
  - Code that raises is modelled with `Except`; `Except.error` is a raised
    exception, `Except.ok` a returned value.
  - External collaborators (the regex engine, the whoosh searcher, the
    query parser) are parameters of the embedded functions.
-/

namespace Paperless

/-! ## Python string primitives -/

/-- Characters matched by Python's `\s` for the ASCII range
(space, tab, newline, carriage return, vertical tab, form feed). -/
def isPySpace (c : Char) : Bool :=
  c = ' ' || c = '\t' || c = '\n' || c = '\r' || c = Char.ofNat 11 || c = Char.ofNat 12

/-- Python `str.strip()` on a character list. -/
def pyStripChars (cs : List Char) : List Char :=
  ((cs.dropWhile isPySpace).reverse.dropWhile isPySpace).reverse

/-- Python `str.strip()`. -/
def pyStrip (s : String) : String := ⟨pyStripChars s.data⟩

/-- Python `","` `.join` of a list of strings. -/
def joinComma (xs : List String) : String := String.intercalate "," xs

/-- Lookup in an ordered string-to-string mapping (Python `dict` access:
first, and only, binding of the key). -/
def lookupParam (params : List (String × String)) (k : String) : Option String :=
  (params.find? (fun p => p.1 = k)).map (·.2)

/-! ## Matching engine (`documents/matching.py`) -/

/-- Modelled from the spec: the seven algorithm selector constants
(`MatchingModel.MATCH_NONE`, `MATCH_ANY`, `MATCH_ALL`, `MATCH_LITERAL`,
`MATCH_REGEX`, `MATCH_FUZZY`, `MATCH_AUTO`) live in `documents/models.py`,
which is not part of the sources; only their distinctness matters here. -/
def MATCH_NONE : Nat := 0

/-- Modelled from the spec: see `MATCH_NONE`. -/
def MATCH_ANY : Nat := 1

/-- Modelled from the spec: see `MATCH_NONE`. -/
def MATCH_ALL : Nat := 2

/-- Modelled from the spec: see `MATCH_NONE`. -/
def MATCH_LITERAL : Nat := 3

/-- Modelled from the spec: see `MATCH_NONE`. -/
def MATCH_REGEX : Nat := 4

/-- Modelled from the spec: see `MATCH_NONE`. -/
def MATCH_FUZZY : Nat := 5

/-- Modelled from the spec: see `MATCH_NONE`. -/
def MATCH_AUTO : Nat := 6

/-- A classification rule: the `match` expression string, the
`matching_algorithm` selector and the `is_insensitive` flag
(the fields of `MatchingModel` that `matches` reads). -/
structure MatchingModel where
  matchExpr : String
  matching_algorithm : Nat
  is_insensitive : Bool
  deriving Repr, DecidableEq

/-- One step of `re.findall` for the pattern `"([^"]+)"|(\S+)`: at each
position the quoted-phrase alternative is tried first (a `"`, one or more
non-quote characters, a closing `"`); if it fails, `\S+` greedily takes the
maximal run of non-whitespace characters; whitespace is skipped.  Each
element of the result is Python's `t[0] or t[1]` for one match `t`. -/
def findtermsAux : Nat → List Char → List String
  | 0, _ => []
  | _, [] => []
  | fuel + 1, c :: rest =>
    if c = '"' then
      let inner := rest.takeWhile (fun d => d != '"')
      match inner, rest.drop inner.length with
      | _ :: _, '"' :: rest2 => String.mk inner :: findtermsAux fuel rest2
      | _, _ =>
        let word := (c :: rest).takeWhile (fun d => !(isPySpace d))
        String.mk word :: findtermsAux fuel ((c :: rest).drop word.length)
    else if isPySpace c then
      findtermsAux fuel rest
    else
      let word := (c :: rest).takeWhile (fun d => !(isPySpace d))
      String.mk word :: findtermsAux fuel ((c :: rest).drop word.length)

/-- Python `re.compile(r'"([^"]+)"|(\S+)').findall`, with the chosen group
(`t[0] or t[1]`) extracted from every match. -/
def findterms (s : String) : List String :=
  findtermsAux s.data.length s.data

/-- Python `re.compile(r"\s+").sub(" ", ·)`: every maximal run of
whitespace becomes one single space.  The flag records whether the
previous character belonged to a whitespace run. -/
def normspaceAux : Bool → List Char → List Char
  | _, [] => []
  | prevSpace, c :: rest =>
    if isPySpace c then
      if prevSpace then normspaceAux true rest
      else ' ' :: normspaceAux true rest
    else c :: normspaceAux false rest

/-- Python `re.sub(r"\s+", " ", s)`. -/
def normspace (s : String) : String := ⟨normspaceAux false s.data⟩

/-- The characters Python 3's `re.escape` prefixes with a backslash. -/
def reSpecialChars : List Char :=
  ['(', ')', '[', ']', Char.ofNat 123, Char.ofNat 125, '?', '*', '+', '-', '|',
   '^', '$', '\\', '.', '&', '~', '#', ' ', '\t', '\n', '\r',
   Char.ofNat 11, Char.ofNat 12]

/-- Character-list version of Python `re.escape`. -/
def reEscapeChars : List Char → List Char
  | [] => []
  | c :: rest =>
    if reSpecialChars.contains c then '\\' :: c :: reEscapeChars rest
    else c :: reEscapeChars rest

/-- Python `re.escape`. -/
def re_escape (s : String) : String := ⟨reEscapeChars s.data⟩

/-- Python `str.replace(r"\ ", r"\s+")`: left-to-right, non-overlapping
replacement of every backslash-space pair. -/
def replaceEscapedSpace : List Char → List Char
  | '\\' :: ' ' :: rest => '\\' :: 's' :: '+' :: replaceEscapedSpace rest
  | c :: rest => c :: replaceEscapedSpace rest
  | [] => []

/-- `_split_match` from `documents/matching.py`: tokenize the rule's match
expression into quoted phrases and bare words, strip each token, collapse
internal whitespace, `re.escape` it, and turn every escaped space into the
pattern `\s+`. -/
def _split_match (m : MatchingModel) : List String :=
  (findterms m.matchExpr).map fun t =>
    ⟨replaceEscapedSpace (re_escape (normspace (pyStrip t))).data⟩

/-- The external regular-expression and fuzzy-matching collaborators used
by `matches`: `search pat text ignoreCase` is `bool(re.search(pat, text))`
with optional `re.IGNORECASE`; `compileOk pat` is whether `re.compile pat`
succeeds (otherwise `re.error` is raised); `fuzzScoreGe90 a b` is the
truthiness of `fuzz.partial_ratio(a, b, score_cutoff=90)`. -/
structure ReEngine where
  search : String → String → Bool → Bool
  compileOk : String → Bool
  fuzzScoreGe90 : String → String → Bool

/-- Python `rf"\b{word}\b"`. -/
def wordBounded (w : String) : String := "\\b" ++ w ++ "\\b"

/-- Python `re.sub(r"[^\w\s]", "", s)` (ASCII reading of `\w`). -/
def stripNonWordSpace (s : String) : String :=
  ⟨s.data.filter (fun c => c.isAlphanum || c = '_' || isPySpace c)⟩

/-- The `matches` function of `documents/matching.py` (named `matchesRule` because `matches` is reserved in Lean).  `Except.error`
models a raised exception (`NotImplementedError` for an unsupported
algorithm); every other path returns a boolean.  An invalid pattern under
`MATCH_REGEX` is caught (`re.error`), logged and treated as no match. -/
def matchesRule (eng : ReEngine) (m : MatchingModel) (content : String) :
    Except String Bool :=
  if pyStrip m.matchExpr = "" then .ok false
  else if m.matching_algorithm = MATCH_NONE then .ok false
  else if m.matching_algorithm = MATCH_ALL then
    .ok ((_split_match m).all fun word =>
      eng.search (wordBounded word) content m.is_insensitive)
  else if m.matching_algorithm = MATCH_ANY then
    .ok ((_split_match m).any fun word =>
      eng.search (wordBounded word) content m.is_insensitive)
  else if m.matching_algorithm = MATCH_LITERAL then
    .ok (eng.search (wordBounded (re_escape m.matchExpr)) content m.is_insensitive)
  else if m.matching_algorithm = MATCH_REGEX then
    if eng.compileOk m.matchExpr then
      .ok (eng.search m.matchExpr content m.is_insensitive)
    else
      .ok false
  else if m.matching_algorithm = MATCH_FUZZY then
    let m1 := stripNonWordSpace m.matchExpr
    let t1 := stripNonWordSpace content
    let m2 := if m.is_insensitive then m1.toLower else m1
    let t2 := if m.is_insensitive then t1.toLower else t1
    .ok (eng.fuzzScoreGe90 m2 t2)
  else if m.matching_algorithm = MATCH_AUTO then .ok false
  else .error "Unsupported matching algorithm"

/-! ## Document projection (`update_document` in `documents/index.py`) -/

/-- The slice of a domain `Document` (plus its related objects) that
`update_document` reads.  Related objects are `(id, name)` pairs; `notes`
are the note bodies for the document; `viewers` are the ids of the users
holding `view_document` permission. -/
structure PDocument where
  pk : Nat
  title : String
  content : String
  correspondent : Option (Nat × String)
  tags : List (Nat × String)
  document_type : Option (Nat × String)
  storage_path : Option (Nat × String)
  owner : Option (Nat × String)
  archive_serial_number : Option Int
  created : Int
  modified : Int
  added : Int
  notes : List String
  viewers : List Nat
  deriving Repr, DecidableEq

/-- The flat index record passed to `writer.update_document`, one field
per keyword argument (`None` is `Option.none`). -/
structure IndexRecord where
  id : Nat
  title : String
  content : String
  correspondent : Option String
  correspondent_id : Option Nat
  has_correspondent : Bool
  tag : Option String
  tag_id : Option String
  has_tag : Bool
  type : Option String
  type_id : Option Nat
  has_type : Bool
  created : Int
  added : Int
  asn : Option Int
  modified : Int
  path : Option String
  path_id : Option Nat
  has_path : Bool
  notes : String
  owner : Option String
  owner_id : Option Nat
  has_owner : Bool
  viewer_id : Option String
  deriving Repr, DecidableEq

/-- Result of `update_document`: the record given to the writer and the
number of `logger.error` calls made. -/
structure UpdateResult where
  record : IndexRecord
  errorLogCount : Nat
  deriving Repr, DecidableEq

/-- `update_document` from `documents/index.py`: join tag names, tag ids,
notes and viewer ids with commas; replace an archive serial number outside
the configured inclusive range `[minAsn, maxAsn]` by `0` after logging one
error; and project every remaining field.  `minAsn`/`maxAsn` stand for
`Document.ARCHIVE_SERIAL_NUMBER_MIN`/`_MAX` (configured constants defined
outside these sources). -/
def update_document (minAsn maxAsn : Int) (doc : PDocument) : UpdateResult :=
  let tags := joinComma (doc.tags.map (·.2))
  let tags_ids := joinComma (doc.tags.map (fun t => toString t.1))
  let notes := joinComma doc.notes
  let asnOutOfRange :=
    match doc.archive_serial_number with
    | some a => a < minAsn || a > maxAsn
    | none => false
  let asn := if asnOutOfRange then some 0 else doc.archive_serial_number
  let viewer_ids := joinComma (doc.viewers.map toString)
  { record :=
      { id := doc.pk
        title := doc.title
        content := doc.content
        correspondent := doc.correspondent.map (·.2)
        correspondent_id := doc.correspondent.map (·.1)
        has_correspondent := doc.correspondent.isSome
        tag := if tags = "" then none else some tags
        tag_id := if tags_ids = "" then none else some tags_ids
        has_tag := tags.length > 0
        type := doc.document_type.map (·.2)
        type_id := doc.document_type.map (·.1)
        has_type := doc.document_type.isSome
        created := doc.created
        added := doc.added
        asn := asn
        modified := doc.modified
        path := doc.storage_path.map (·.2)
        path_id := doc.storage_path.map (·.1)
        has_path := doc.storage_path.isSome
        notes := notes
        owner := doc.owner.map (·.2)
        owner_id := doc.owner.map (·.1)
        has_owner := doc.owner.isSome
        viewer_id := if viewer_ids = "" then none else some viewer_ids }
    errorLogCount := if asnOutOfRange then 1 else 0 }

/-! ## Writer scope (`open_index_writer` in `documents/index.py`) -/

/-- One call on the `AsyncWriter`: a document upsert or delete issued by
the body of the scope, or the scope's own `cancel` / `commit(optimize=·)`. -/
inductive WriterOp where
  | update (docId : Nat)
  | delete (docId : Nat)
  | cancel
  | commit (optimize : Bool)
  deriving Repr, DecidableEq

/-- Outcome of one `open_index_writer` scope: the full sequence of writer
calls, the messages passed to `logger.exception`, and whether an exception
escaped the scope. -/
structure WriterScopeResult where
  ops : List WriterOp
  loggedErrors : List String
  result : Except String Unit
  deriving Repr

/-- The `open_index_writer` context manager: run the body (its writer calls
plus its outcome); on an exception log it, call `writer.cancel()`, and do
not re-raise; in the `finally` block always call `writer.commit(optimize)`. -/
def open_index_writer (optimize : Bool)
    (body : List WriterOp × Except String Unit) : WriterScopeResult :=
  match body with
  | (bodyOps, .ok _) =>
    { ops := bodyOps ++ [.commit optimize], loggedErrors := [], result := .ok () }
  | (bodyOps, .error e) =>
    { ops := bodyOps ++ [.cancel, .commit optimize],
      loggedErrors := [e], result := .ok () }

/-- Number of `commit` calls in a writer-op sequence. -/
def commitCount (ops : List WriterOp) : Nat :=
  ops.countP (fun o => match o with | .commit _ => true | _ => false)

/-! ## Query AST and the permission filter
(`DelayedQuery._get_query_filter` in `documents/index.py`) -/

/-- A value placed in a whoosh `Term`: the parameter strings from the
request, or a Python boolean. -/
inductive WValue where
  | s (v : String)
  | b (v : Bool)
  deriving Repr, DecidableEq

mutual
/-- The whoosh query nodes built by `documents/index.py`:
`query.Term`, `query.Not`, `query.DateRange`, `query.And`, `query.Or`.
`And`/`Or` take the list of sub-queries they are given in the source. -/
inductive WQuery where
  | term (field : String) (value : WValue)
  | wnot (q : WQuery)
  | dateRange (field : String) (startv endv : Option Int)
  | wand (qs : WQueryList)
  | wor (qs : WQueryList)
  deriving Repr, DecidableEq
/-- A list of `WQuery` (mutual with `WQuery` so that all recursions are
structural). -/
inductive WQueryList where
  | nil
  | cons (q : WQuery) (qs : WQueryList)
  deriving Repr, DecidableEq
end

/-- Convert an ordinary list of queries into a `WQueryList`. -/
def toWQL : List WQuery → WQueryList
  | [] => .nil
  | q :: qs => .cons q (toWQL qs)

/-- The criteria contributed by one recognized query parameter, in source
order; an unrecognized key contributes nothing.  `isoparse` is the external
ISO-8601 date parser (its codomain is abstracted to `Int`). -/
def criteriaFor (isoparse : String → Int) (k v : String) : List WQuery :=
  if k = "correspondent__id" then [.term "correspondent_id" (.s v)]
  else if k = "tags__id__all" then
    (v.splitOn ",").map (fun tid => .term "tag_id" (.s tid))
  else if k = "tags__id__none" then
    (v.splitOn ",").map (fun tid => .wnot (.term "tag_id" (.s tid)))
  else if k = "document_type__id" then [.term "type_id" (.s v)]
  else if k = "correspondent__isnull" then
    [.term "has_correspondent" (.b (v = "false"))]
  else if k = "is_tagged" then [.term "has_tag" (.b (v = "true"))]
  else if k = "document_type__isnull" then [.term "has_type" (.b (v = "false"))]
  else if k = "created__date__lt" then [.dateRange "created" none (some (isoparse v))]
  else if k = "created__date__gt" then [.dateRange "created" (some (isoparse v)) none]
  else if k = "added__date__gt" then [.dateRange "added" (some (isoparse v)) none]
  else if k = "added__date__lt" then [.dateRange "added" none (some (isoparse v))]
  else if k = "storage_path__id" then [.term "path_id" (.s v)]
  else if k = "storage_path__isnull" then [.term "has_path" (.b (v = "false"))]
  else []

/-- The `user_criterias` list of `_get_query_filter`: always
`Term("has_owner", False)`, and when a `user` parameter is present also
`Term("owner_id", user)` and `Term("viewer_id", str(user))`. -/
def user_criterias (params : List (String × String)) : List WQuery :=
  [.term "has_owner" (.b false)] ++
    (match lookupParam params "user" with
     | some u => [.term "owner_id" (.s u), .term "viewer_id" (.s u)]
     | none => [])

/-- `DelayedQuery._get_query_filter`: collect the criteria of every
parameter in order; append `Or(user_criterias)` and wrap in `And` when any
other criterion exists, otherwise return `Or(user_criterias)` alone. -/
def _get_query_filter (isoparse : String → Int)
    (params : List (String × String)) : WQuery :=
  let criterias := params.flatMap (fun kv => criteriaFor isoparse kv.1 kv.2)
  if criterias.length > 0 then
    .wand (toWQL (criterias ++ [.wor (toWQL (user_criterias params))]))
  else
    .wor (toWQL (user_criterias params))

/-- An indexed record as the filter evaluator sees it: the three
permission fields have their schema semantics (`has_owner` a boolean,
`owner_id` a stored value, `viewer_id` a comma-separated keyword list,
here already split); every other field's term/range semantics is an
arbitrary oracle, since only the permission fields matter to the claims. -/
structure IRecord where
  has_owner : Bool
  owner_id : Option String
  viewer_id : List String
  other : String → WValue → Bool
  otherRange : String → Option Int → Option Int → Bool

/-- Semantics of one whoosh `Term` on a record. -/
def evalTerm (r : IRecord) (f : String) (v : WValue) : Bool :=
  if f = "has_owner" then
    match v with
    | .b b => r.has_owner = b
    | _ => r.other f v
  else if f = "owner_id" then
    match v with
    | .s u => r.owner_id = some u
    | _ => r.other f v
  else if f = "viewer_id" then
    match v with
    | .s u => r.viewer_id.contains u
    | _ => r.other f v
  else r.other f v

mutual
/-- Whether a record matches a query: `And` is conjunction over the list,
`Or` disjunction, `Not` negation, `Term`/`DateRange` as above. -/
def evalQ (r : IRecord) : WQuery → Bool
  | .term f v => evalTerm r f v
  | .wnot q => !(evalQ r q)
  | .dateRange f a b => r.otherRange f a b
  | .wand qs => evalAll r qs
  | .wor qs => evalAny r qs
/-- Conjunction of `evalQ` over a query list. -/
def evalAll (r : IRecord) : WQueryList → Bool
  | .nil => true
  | .cons q qs => evalQ r q && evalAll r qs
/-- Disjunction of `evalQ` over a query list. -/
def evalAny (r : IRecord) : WQueryList → Bool
  | .nil => false
  | .cons q qs => evalQ r q || evalAny r qs
end

/-! ## Sort mapping (`DelayedQuery._get_query_sortedby`) -/

/-- The fixed `sort_fields_map` of `_get_query_sortedby`. -/
def sort_fields_map : List (String × String) :=
  [("created", "created"), ("modified", "modified"), ("added", "added"),
   ("title", "title"), ("correspondent__name", "correspondent"),
   ("document_type__name", "type"), ("archive_serial_number", "asn")]

/-- Python `field.startswith("-")` plus `field[1:]`: strip one leading
descending marker and report whether it was present. -/
def stripLeadingDash (s : String) : String × Bool :=
  match s.data with
  | '-' :: rest => (⟨rest⟩, true)
  | _ => (s, false)

/-- `DelayedQuery._get_query_sortedby`: no `ordering` parameter, or a
value (after stripping an optional leading `-`) outside the map, yields
`(none, false)`; a recognized key yields its index field and the reverse
flag. -/
def _get_query_sortedby (params : List (String × String)) :
    Option String × Bool :=
  match lookupParam params "ordering" with
  | none => (none, false)
  | some field0 =>
    let fr := stripLeadingDash field0
    match lookupParam sort_fields_map fr.1 with
    | none => (none, false)
    | some sf => (some sf, fr.2)

/-! ## Paginated result cursor (`DelayedQuery.__getitem__`) -/

/-- A raw search hit as it sits in `page.results.top_n`: the float score
(modelled as `ℚ`) and the document number. -/
abbrev RawHit := ℚ × Nat

/-- A hit after score normalization: the score slot now holds
`raw / first_score` or `None`. -/
abbrev NormHit := Option ℚ × Nat

/-- A cached, normalized page (`top_n` after the `map`). -/
abbrev DQPage := List NormHit

/-- The mutable state of one `DelayedQuery` instance:
`saved_results` (keyed by slice start) and `first_score`. -/
structure DQState where
  saved_results : List (Nat × DQPage)
  first_score : Option ℚ
  deriving Repr, DecidableEq

/-- `self.saved_results[start]`, `none` when absent. -/
def lookupSaved (st : DQState) (start : Nat) : Option DQPage :=
  (st.saved_results.find? (fun p => p.1 = start)).map (·.2)

/-- State of a freshly constructed `DelayedQuery`. -/
def initialDQState : DQState := ⟨[], none⟩

/-- Python truthiness of `self.first_score` (`None` and `0.0` are falsy). -/
def pyFalsy : Option ℚ → Bool
  | none => true
  | some c => c = 0

/-- Result of one `__getitem__` call: the returned page, the new cursor
state, and how many times `searcher.search_page` ran (0 or 1). -/
structure GetItemResult where
  page : DQPage
  state : DQState
  searchCount : Nat
  deriving Repr, DecidableEq

/-- `DelayedQuery.__getitem__`: return the cached page when the start
offset was already computed; otherwise run the search for page
`start / page_size + 1` (the searcher is abstracted as a function of the
page number, sort field and reverse flag), set `first_score` from the top
hit when it is still falsy, no sort is requested and the page is nonempty,
normalize every score by the remembered `first_score` (`None` when that is
falsy), cache the page under `start` and return it. -/
def dq_getitem (search : Nat → Option String → Bool → List RawHit)
    (params : List (String × String)) (page_size : Nat)
    (st : DQState) (start : Nat) : GetItemResult :=
  match lookupSaved st start with
  | some p => ⟨p, st, 0⟩
  | none =>
    let sr := _get_query_sortedby params
    let raw := search (start / page_size + 1) sr.1 sr.2
    let fs :=
      if pyFalsy st.first_score ∧ sr.1 = none then
        match raw with
        | h :: _ => some h.1
        | [] => st.first_score
      else st.first_score
    let normed : DQPage := raw.map fun h =>
      ((match fs with
        | some c => if c = 0 then none else some (h.1 / c)
        | none => none), h.2)
    ⟨normed, ⟨(start, normed) :: st.saved_results, fs⟩, 1⟩

/-- Run a sequence of `__getitem__` calls on one cursor instance,
collecting the returned pages. -/
def dq_run (search : Nat → Option String → Bool → List RawHit)
    (params : List (String × String)) (page_size : Nat) :
    DQState → List Nat → DQState × List DQPage
  | st, [] => (st, [])
  | st, s :: rest =>
    let r := dq_getitem search params page_size st s
    let next := dq_run search params page_size r.state rest
    (next.1, r.page :: next.2)

/-- The result page obtained by dividing every raw score by `t`. -/
def normPageBy (t : ℚ) (raw : List RawHit) : DQPage :=
  raw.map (fun h => (some (h.1 / t), h.2))

/-- Normalization invariant of a cursor: the remembered top score is `t`
and every cached page is its raw search page normalized by `t`. -/
def dqNormInv (search : Nat → Option String → Bool → List RawHit)
    (page_size : Nat) (t : ℚ) (st : DQState) : Prop :=
  st.first_score = some t ∧
  ∀ x p, lookupSaved st x = some p →
    p = normPageBy t (search (x / page_size + 1) none false)

/-! ## Full-text query variant (`DelayedFullTextQuery._get_query`) -/

/-- The fields the `MultifieldParser` of the full-text variant searches. -/
def fulltext_search_fields : List String :=
  ["content", "title", "correspondent", "tag", "type", "notes"]

/-- A whoosh `Correction` as returned by `searcher.correct_query`:
its `query` attribute (the corrected query) and its `string` attribute
(the corrected query string). -/
structure Correction where
  cquery : WQuery
  cstring : String

/-- `DelayedFullTextQuery._get_query`: parse the `query` parameter over
the six search fields (`parse` abstracts the `MultifieldParser` with its
date plugin, `correct_query` the searcher's spelling correction); the
correction is computed, and its `query` attribute is rewritten to the
corrected string when it differs from the parse, but the value returned
for execution is the parse of the original string with a `None` mask.
A missing `query` parameter is a `KeyError` (`Option.none`). -/
def DelayedFullTextQuery_get_query
    (parse : List String → String → WQuery)
    (correct_query : WQuery → String → Correction)
    (params : List (String × String)) :
    Option (WQuery × Option (List Nat)) :=
  match lookupParam params "query" with
  | none => none
  | some q_str =>
    let q := parse fulltext_search_fields q_str
    let corrected := correct_query q q_str
    let _ : WQuery ⊕ String :=
      if corrected.cquery ≠ q then Sum.inr corrected.cstring
      else Sum.inl corrected.cquery
    some (q, none)

/-! ## Claim theorems -/

/-- C6: `split_match` applied to the expression
`  some random  words "with   quotes  " and   spaces` yields exactly the
token list `some`, `random`, `words`, `with\s+quotes`, `and`, `spaces`:
quoted phrases are grouped, whitespace runs collapsed, tokens trimmed and
regex-escaped, and each escaped space becomes a one-or-more-whitespace
pattern. -/
theorem split_match_example :
    _split_match ⟨"  some random  words \"with   quotes  \" and   spaces",
        MATCH_ANY, false⟩ =
      ["some", "random", "words", "with\\s+quotes", "and", "spaces"] := by
  decide

/-- C2 counterexample: a rule whose algorithm value (99) is none of the
seven recognized constants but whose match expression is whitespace-only
makes `matches` return `False` instead of raising: the empty-expression
guard runs before the algorithm dispatch, so the claim's "for every rule
with an unsupported algorithm and every document text" fails here. -/
theorem matches_unsupported_empty_counterexample :
    matchesRule ⟨fun _ _ _ => false, fun _ => true, fun _ _ => false⟩
      ⟨"   ", 99, false⟩ "any document text" = Except.ok false := by
  rfl

/-- C2 (amended): for every rule whose match expression is non-empty after
stripping whitespace and whose algorithm value is none of the seven
recognized constants, and for every engine and document text, `matches`
raises the fatal unsupported-algorithm error instead of returning a
boolean. -/
theorem matches_unsupported_raises (eng : ReEngine) (m : MatchingModel)
    (content : String)
    (hne : pyStrip m.matchExpr ≠ "")
    (halg : m.matching_algorithm ∉
      [MATCH_NONE, MATCH_ALL, MATCH_ANY, MATCH_LITERAL, MATCH_REGEX,
       MATCH_FUZZY, MATCH_AUTO]) :
    matchesRule eng m content = Except.error "Unsupported matching algorithm" := by
  simp only [List.mem_cons, List.mem_singleton, not_or] at halg
  obtain ⟨h0, h2, h1, h3, h4, h5, ⟨h6, -⟩⟩ := halg
  simp [matchesRule, hne, h0, h1, h2, h3, h4, h5, h6]

/-- Witness for the amended C2 theorem at a concrete rule. -/
theorem matches_unsupported_raises_witness :
    matchesRule ⟨fun _ _ _ => false, fun _ => true, fun _ _ => false⟩
      ⟨"invoice", 42, false⟩ "text" =
      Except.error "Unsupported matching algorithm" :=
  matches_unsupported_raises ⟨fun _ _ _ => false, fun _ => true, fun _ _ => false⟩
    ⟨"invoice", 42, false⟩ "text" (by decide) (by decide)

/-- C5: indexing a document whose archive serial number lies outside the
configured inclusive range `[minAsn, maxAsn]` stores an ASN of `0` and
logs exactly one error; an ASN inside the range is stored unchanged and
nothing is logged. -/
theorem update_document_asn_range (minAsn maxAsn : Int) (doc : PDocument)
    (a : Int) (ha : doc.archive_serial_number = some a) :
    ((a < minAsn ∨ a > maxAsn) →
      (update_document minAsn maxAsn doc).record.asn = some 0 ∧
      (update_document minAsn maxAsn doc).errorLogCount = 1) ∧
    ((minAsn ≤ a ∧ a ≤ maxAsn) →
      (update_document minAsn maxAsn doc).record.asn = some a ∧
      (update_document minAsn maxAsn doc).errorLogCount = 0) := by
  constructor
  · intro h
    rcases h with h | h <;> simp [update_document, ha, h]
  · intro h
    have h1 : ¬ a < minAsn := not_lt.mpr h.1
    have h2 : ¬ a > maxAsn := not_lt.mpr h.2
    simp [update_document, ha, h1, h2]

/-- Witness for the C5 theorem at a concrete out-of-range and a concrete
in-range document. -/
theorem update_document_asn_range_witness :
    (update_document 0 100
      ⟨1, "t", "c", none, [], none, none, none, some 101, 0, 0, 0, [], []⟩
      ).record.asn = some 0 ∧
    (update_document 0 100
      ⟨1, "t", "c", none, [], none, none, none, some 101, 0, 0, 0, [], []⟩
      ).errorLogCount = 1 :=
  (update_document_asn_range 0 100
    ⟨1, "t", "c", none, [], none, none, none, some 101, 0, 0, 0, [], []⟩
    101 rfl).1 (Or.inr (by norm_num))

/-- C10: a document with an absent archive serial number is indexed with
an absent `asn` field, not `0`, and no error is logged: the zero
substitution applies only to present, out-of-range values. -/
theorem update_document_asn_absent (minAsn maxAsn : Int) (doc : PDocument)
    (ha : doc.archive_serial_number = none) :
    (update_document minAsn maxAsn doc).record.asn = none ∧
    (update_document minAsn maxAsn doc).errorLogCount = 0 := by
  simp [update_document, ha]

/-- Witness for the C10 theorem at a concrete document without an ASN. -/
theorem update_document_asn_absent_witness :
    (update_document 0 100
      ⟨1, "t", "c", none, [], none, none, none, none, 0, 0, 0, [], []⟩
      ).record.asn = none ∧
    (update_document 0 100
      ⟨1, "t", "c", none, [], none, none, none, none, 0, 0, 0, [], []⟩
      ).errorLogCount = 0 :=
  update_document_asn_absent 0 100
    ⟨1, "t", "c", none, [], none, none, none, none, 0, 0, 0, [], []⟩ rfl

/-- C4: every writer scope appends, after the body's own writer calls,
its final operations: exactly one `commit` (with the scope's `optimize`
flag), which is always the last operation issued; on the error path a
`cancel` precedes it, the exception is logged, and the scope's result is
normal (the exception is not re-raised). -/
theorem open_index_writer_every_exit (optimize : Bool)
    (body : List WriterOp × Except String Unit) :
    (open_index_writer optimize body).ops =
      body.1 ++ (match body.2 with
        | .ok _ => [WriterOp.commit optimize]
        | .error _ => [WriterOp.cancel, WriterOp.commit optimize]) ∧
    (open_index_writer optimize body).ops.getLast? =
      some (WriterOp.commit optimize) ∧
    commitCount (open_index_writer optimize body).ops =
      commitCount body.1 + 1 ∧
    (open_index_writer optimize body).result = Except.ok () ∧
    (open_index_writer optimize body).loggedErrors =
      (match body.2 with | .ok _ => [] | .error e => [e]) := by
  obtain ⟨bodyOps, res⟩ := body
  cases res <;>
    simp [open_index_writer, commitCount, List.countP_append, List.countP_cons,
      List.getLast?_append]

/-- C8: the sort computation never errors: a missing `ordering`
parameter, or one whose value after stripping an optional leading `-` is
not a key of the fixed map, yields no sort field and no reverse flag;
a recognized key maps through `sort_fields_map` to its sortable index
field, the leading `-` selecting descending order. -/
theorem sortedby_spec (params : List (String × String)) :
    (lookupParam params "ordering" = none →
      _get_query_sortedby params = (none, false)) ∧
    (∀ f, lookupParam params "ordering" = some f →
      lookupParam sort_fields_map (stripLeadingDash f).1 = none →
      _get_query_sortedby params = (none, false)) ∧
    (∀ f m, lookupParam params "ordering" = some f →
      lookupParam sort_fields_map (stripLeadingDash f).1 = some m →
      _get_query_sortedby params = (some m, (stripLeadingDash f).2)) := by
  refine ⟨fun h => by simp [_get_query_sortedby, h], ?_, ?_⟩
  · intro f hf hmap
    simp [_get_query_sortedby, hf, hmap]
  · intro f m hf hmap
    simp [_get_query_sortedby, hf, hmap]

/-- Witness for the C8 theorem: a descending recognized key. -/
theorem sortedby_spec_witness :
    _get_query_sortedby [("ordering", "-title")] = (some "title", true) :=
  (sortedby_spec [("ordering", "-title")]).2.2 "-title" "title" rfl rfl

/-- C9: the full-text variant's executed query is always the parse of the
original input string over the fields content, title, correspondent, tag,
type, notes; the spelling-corrected suggestion is computed but never
substituted, so the returned query does not depend on the correction
function at all. -/
theorem fulltext_query_ignores_correction
    (parse : List String → String → WQuery)
    (correct1 correct2 : WQuery → String → Correction)
    (params : List (String × String)) (q_str : String)
    (h : lookupParam params "query" = some q_str) :
    DelayedFullTextQuery_get_query parse correct1 params =
      some (parse fulltext_search_fields q_str, none) ∧
    DelayedFullTextQuery_get_query parse correct1 params =
      DelayedFullTextQuery_get_query parse correct2 params := by
  constructor <;> simp [DelayedFullTextQuery_get_query, h]

/-- Witness for the C9 theorem: two different correction functions, one
concrete query string. -/
theorem fulltext_query_ignores_correction_witness :
    DelayedFullTextQuery_get_query (fun _ s => WQuery.term "content" (.s s))
      (fun q s => ⟨q, s⟩) [("query", "invoice 2023")] =
      some (WQuery.term "content" (.s "invoice 2023"), none) :=
  (fulltext_query_ignores_correction (fun _ s => WQuery.term "content" (.s s))
    (fun q s => ⟨q, s⟩) (fun _ s => ⟨WQuery.wand .nil, s⟩)
    [("query", "invoice 2023")] "invoice 2023" rfl).1

/-- C7: the first fetch at a start offset executes the search exactly once
and caches the resulting page under that offset before returning it; a
fetch at an already-computed offset runs no search; in particular any
subsequent fetch at the same offset on the same instance returns the
identical cached page with the state unchanged and the search not
re-executed. -/
theorem dq_getitem_caches (search : Nat → Option String → Bool → List RawHit)
    (params : List (String × String)) (page_size : Nat)
    (st : DQState) (start : Nat) :
    lookupSaved (dq_getitem search params page_size st start).state start =
      some (dq_getitem search params page_size st start).page ∧
    (dq_getitem search params page_size st start).searchCount =
      (if (lookupSaved st start).isSome then 0 else 1) ∧
    dq_getitem search params page_size
        (dq_getitem search params page_size st start).state start =
      ⟨(dq_getitem search params page_size st start).page,
       (dq_getitem search params page_size st start).state, 0⟩ := by
  cases hl : lookupSaved st start with
  | some p => refine ⟨?_, ?_, ?_⟩ <;> simp [dq_getitem, hl]
  | none =>
    have hcache : ∀ pg rest fs, lookupSaved ⟨(start, pg) :: rest, fs⟩ start = some pg := by
      intro pg rest fs
      simp [lookupSaved, List.find?]
    refine ⟨?_, ?_, ?_⟩
    · simp only [dq_getitem, hl]
      exact hcache _ _ _
    · simp [dq_getitem, hl]
    · simp only [dq_getitem, hl]
      rw [hcache]

/-- Conjunction over a concatenation of query lists splits. -/
theorem evalAll_toWQL_append (r : IRecord) (xs ys : List WQuery) :
    evalAll r (toWQL (xs ++ ys)) = (evalAll r (toWQL xs) && evalAll r (toWQL ys)) := by
  induction xs with
  | nil => simp [toWQL, evalAll]
  | cons q qs ih => simp [toWQL, evalAll, ih, Bool.and_assoc]

/-- A record satisfying the permission OR-predicate has no owner, is owned
by the requesting user, or lists that user as a viewer. -/
theorem user_criterias_sound (r : IRecord) (params : List (String × String))
    (h : evalAny r (toWQL (user_criterias params)) = true) :
    r.has_owner = false ∨
      ∃ u, lookupParam params "user" = some u ∧
        (r.owner_id = some u ∨ u ∈ r.viewer_id) := by
  cases hu : lookupParam params "user" with
  | none =>
    simp [user_criterias, hu, toWQL, evalAny, evalQ, evalTerm] at h
    exact Or.inl h
  | some u =>
    simp [user_criterias, hu, toWQL, evalAny, evalQ, evalTerm] at h
    rcases h with h | h | h
    · exact Or.inl h
    · exact Or.inr ⟨u, rfl, Or.inl h⟩
    · exact Or.inr ⟨u, rfl, Or.inr h⟩

/-- C1: the compiled filter always contains the permission OR-predicate:
it is the whole filter when no other recognized criterion exists, and is
ANDed (as last conjunct) with the criteria otherwise; the predicate is
`has_owner = false`, extended by `owner_id = u` and `u ∈ viewer_id` when a
`user` parameter `u` is present; consequently a record passing the filter
has no owner, is owned by the requesting user, or lists that user as a
viewer. -/
theorem permission_filter_spec (isoparse : String → Int)
    (params : List (String × String)) (r : IRecord)
    (hpass : evalQ r (_get_query_filter isoparse params) = true) :
    (_get_query_filter isoparse params = .wor (toWQL (user_criterias params)) ∨
      ∃ rest : List WQuery, rest ≠ [] ∧
        _get_query_filter isoparse params =
          .wand (toWQL (rest ++ [.wor (toWQL (user_criterias params))]))) ∧
    (user_criterias params = [.term "has_owner" (.b false)] ∨
      ∃ u, lookupParam params "user" = some u ∧
        user_criterias params =
          [.term "has_owner" (.b false), .term "owner_id" (.s u),
           .term "viewer_id" (.s u)]) ∧
    (r.has_owner = false ∨
      ∃ u, lookupParam params "user" = some u ∧
        (r.owner_id = some u ∨ u ∈ r.viewer_id)) := by
  refine ⟨?_, ?_, ?_⟩
  · by_cases hc :
      (params.flatMap (fun kv => criteriaFor isoparse kv.1 kv.2)).length > 0
    · refine Or.inr ⟨params.flatMap (fun kv => criteriaFor isoparse kv.1 kv.2),
        ?_, ?_⟩
      · intro hnil
        rw [hnil] at hc
        exact absurd hc (by simp)
      · simp only [_get_query_filter]
        rw [if_pos hc]
    · simp only [_get_query_filter]
      rw [if_neg hc]
      exact Or.inl rfl
  · cases hu : lookupParam params "user" with
    | none => exact Or.inl (by simp [user_criterias, hu])
    | some u => exact Or.inr ⟨u, rfl, by simp [user_criterias, hu]⟩
  · apply user_criterias_sound r params
    by_cases hc :
      (params.flatMap (fun kv => criteriaFor isoparse kv.1 kv.2)).length > 0
    · rw [_get_query_filter, if_pos hc] at hpass
      have h2 : evalAll r (toWQL
          ((params.flatMap (fun kv => criteriaFor isoparse kv.1 kv.2)) ++
            [.wor (toWQL (user_criterias params))])) = true := by
        simpa [evalQ] using hpass
      rw [evalAll_toWQL_append] at h2
      simp only [Bool.and_eq_true] at h2
      have h3 := h2.2
      simpa [toWQL, evalAll, evalQ] using h3
    · rw [_get_query_filter, if_neg hc] at hpass
      simpa [evalQ] using hpass

/-- Witness for the C1 theorem: a request with `user = 3` and a record
owned by user 3. -/
theorem permission_filter_spec_witness :
    IRecord.has_owner
        ⟨true, some "3", [], fun _ _ => true, fun _ _ _ => true⟩ = false ∨
      ∃ u, lookupParam [("user", "3")] "user" = some u ∧
        (IRecord.owner_id
            ⟨true, some "3", [], fun _ _ => true, fun _ _ _ => true⟩ = some u ∨
         u ∈ IRecord.viewer_id
            ⟨true, some "3", [], fun _ _ => true, fun _ _ _ => true⟩) :=
  (permission_filter_spec (fun _ => 0) [("user", "3")]
    ⟨true, some "3", [], fun _ _ => true, fun _ _ _ => true⟩ (by decide)).2.2

/-- One fetch preserves the normalization invariant and returns the raw
page for that offset normalized by the remembered score. -/
theorem dq_getitem_norm_step
    (search : Nat → Option String → Bool → List RawHit)
    (params : List (String × String)) (page_size : Nat) (t : ℚ)
    (st : DQState) (x : Nat)
    (hsort : _get_query_sortedby params = (none, false))
    (ht : t ≠ 0) (hinv : dqNormInv search page_size t st) :
    (dq_getitem search params page_size st x).page =
      normPageBy t (search (x / page_size + 1) none false) ∧
    dqNormInv search page_size t (dq_getitem search params page_size st x).state := by
  cases hl : lookupSaved st x with
  | some p =>
    have hp := hinv.2 x p hl
    constructor
    · simp [dq_getitem, hl, hp]
    · simpa [dq_getitem, hl] using hinv
  | none =>
    have hfs : pyFalsy (some t) = false := by simp [pyFalsy, ht]
    constructor
    · simp [dq_getitem, hl, hsort, hinv.1, hfs, normPageBy, ht]
    · refine ⟨?_, ?_⟩
      · simp [dq_getitem, hl, hsort, hinv.1, hfs]
      · intro y p hy
        simp only [dq_getitem, hl, hsort, hinv.1, hfs] at hy
        simp only [lookupSaved, List.find?] at hy
        by_cases hxy : x = y
        · subst hxy
          simp [hfs, ht] at hy
          rw [← hy]
          simp [normPageBy, ht]
        · rw [decide_eq_false hxy] at hy
          exact hinv.2 y p hy

/-- Running any sequence of fetches from an invariant state returns every
page normalized by the same remembered score and preserves the invariant. -/
theorem dq_run_norm (search : Nat → Option String → Bool → List RawHit)
    (params : List (String × String)) (page_size : Nat) (t : ℚ)
    (hsort : _get_query_sortedby params = (none, false)) (ht : t ≠ 0) :
    ∀ (starts : List Nat) (st : DQState), dqNormInv search page_size t st →
    (dq_run search params page_size st starts).2 =
      starts.map (fun x => normPageBy t (search (x / page_size + 1) none false)) ∧
    dqNormInv search page_size t (dq_run search params page_size st starts).1 := by
  intro starts
  induction starts with
  | nil => intro st h; exact ⟨by simp [dq_run], by simpa [dq_run] using h⟩
  | cons s rest ih =>
    intro st h
    have step := dq_getitem_norm_step search params page_size t st s hsort ht h
    have tail := ih _ step.2
    constructor
    · simp [dq_run, step.1, tail.1]
    · simpa [dq_run] using tail.2

/-- C3 (amended): on a cursor over a query with no explicit sort whose
first fetched page is nonempty with a nonzero top raw score, that score is
remembered; the hits of that page and of every page fetched afterwards are
normalized by dividing their raw score by that same remembered first-page
top score (never by a later page's own top score), and the first page's
top hit normalizes to exactly 1.  (The amendment restricts the claim to a
nonzero first-page top score: a zero score is falsy in Python, so the code
treats it as unknown, yields null relevances and lets a later page
re-remember its own top score.) -/
theorem dq_score_normalization
    (search : Nat → Option String → Bool → List RawHit)
    (params : List (String × String)) (page_size : Nat)
    (s : Nat) (rest : List Nat) (h : RawHit) (hs : List RawHit)
    (hsort : _get_query_sortedby params = (none, false))
    (hpage : search (s / page_size + 1) none false = h :: hs)
    (hnz : h.1 ≠ 0) :
    (dq_run search params page_size initialDQState (s :: rest)).1.first_score =
      some h.1 ∧
    (dq_run search params page_size initialDQState (s :: rest)).2 =
      (s :: rest).map
        (fun x => normPageBy h.1 (search (x / page_size + 1) none false)) ∧
    (normPageBy h.1 (search (s / page_size + 1) none false)).head? =
      some (some 1, h.2) := by
  have hstep : dq_getitem search params page_size initialDQState s =
      ⟨normPageBy h.1 (h :: hs),
       ⟨[(s, normPageBy h.1 (h :: hs))], some h.1⟩, 1⟩ := by
    simp [dq_getitem, initialDQState, lookupSaved, hsort, hpage, pyFalsy,
      normPageBy, hnz]
  have hinv1 : dqNormInv search page_size h.1
      ⟨[(s, normPageBy h.1 (h :: hs))], some h.1⟩ := by
    refine ⟨rfl, ?_⟩
    intro y p hy
    simp only [lookupSaved, List.find?] at hy
    by_cases hxy : s = y
    · subst hxy
      simp at hy
      rw [← hy, hpage]
    · rw [decide_eq_false hxy] at hy
      simp at hy
  have run := dq_run_norm search params page_size h.1 hsort hnz rest _ hinv1
  refine ⟨?_, ?_, ?_⟩
  · simp only [dq_run, hstep]
    exact run.2.1
  · simp only [dq_run, hstep]
    simp [run.1, hpage]
  · rw [hpage]
    simp [normPageBy, div_self hnz]

/-- C3 counterexample: raw scores can be zero and the code treats a falsy
(zero) remembered score as unknown.  With page 1 returning one hit of raw
score 0 and page 2 one hit of raw score 5: the first page's top hit gets a
null relevance although its raw score exists (the claim says it
normalizes to 1.0), the top score is re-remembered from the second page,
and the second page is normalized by its own top score (to 1), not by the
first page's remembered top score. -/
theorem dq_score_normalization_counterexample :
    (dq_getitem (fun n _ _ => if n = 1 then [((0 : ℚ), 10)] else [((5 : ℚ), 20)])
        [] 10 initialDQState 0).page = [(none, 10)] ∧
    (dq_getitem (fun n _ _ => if n = 1 then [((0 : ℚ), 10)] else [((5 : ℚ), 20)])
        [] 10 initialDQState 0).state.first_score = some 0 ∧
    (dq_getitem (fun n _ _ => if n = 1 then [((0 : ℚ), 10)] else [((5 : ℚ), 20)])
        [] 10
        (dq_getitem (fun n _ _ => if n = 1 then [((0 : ℚ), 10)] else [((5 : ℚ), 20)])
          [] 10 initialDQState 0).state 10).page = [(some 1, 20)] ∧
    (dq_getitem (fun n _ _ => if n = 1 then [((0 : ℚ), 10)] else [((5 : ℚ), 20)])
        [] 10
        (dq_getitem (fun n _ _ => if n = 1 then [((0 : ℚ), 10)] else [((5 : ℚ), 20)])
          [] 10 initialDQState 0).state 10).state.first_score = some 5 := by
  refine ⟨?_, ?_, ?_, ?_⟩ <;>
    norm_num [dq_getitem, initialDQState, lookupSaved, _get_query_sortedby,
      lookupParam, pyFalsy, List.find?]

/-- Witness for the amended C3 theorem at a concrete searcher. -/
theorem dq_score_normalization_witness :
    (dq_run (fun _ _ _ => [((2 : ℚ), 5)]) [] 10 initialDQState
        [0, 10]).1.first_score = some 2 :=
  (dq_score_normalization (fun _ _ _ => [((2 : ℚ), 5)]) [] 10 0 [10] (2, 5) []
    rfl rfl (by norm_num)).1

end Paperless
